import Mathlib

/-!
Verification of the bilibili danmaku library core against its design
specification.  The Go source is shallowly embedded: bytes are `Nat`
values (< 256), machine-integer arithmetic is `Nat`/`Int` with explicit
`% 2^w` where width matters, fallible code returns `Except`/`Option`,
and the external decompression routines (zlib / brotli, third-party
libraries) are abstract parameters of type `List Nat → Except String (List Nat)`.
-/

namespace BiliDM

/-! ## Packet codec (packet.go) -/

/-- Packet mirrors the Go struct `Packet` (packet.go:34): protocol version
(uint16), operation type (uint32), sequence (uint32) and raw body bytes.
Fields are `Nat`; the encoder applies the machine widths explicitly. -/
structure Packet where
  Protocol : Nat
  OpType   : Nat
  Sequence : Nat
  Body     : List Nat
deriving Repr, DecidableEq

/-- headerSize mirrors the constant `headerSize = 16` (packet.go:31). -/
def headerSize : Nat := 16

/-- putUint32 models `binary.BigEndian.PutUint32`: the four big-endian
bytes of `n % 2^32`. -/
def putUint32 (n : Nat) : List Nat :=
  [n / 2 ^ 24 % 256, n / 2 ^ 16 % 256, n / 2 ^ 8 % 256, n % 256]

/-- putUint16 models `binary.BigEndian.PutUint16`: the two big-endian
bytes of `n % 2^16`. -/
def putUint16 (n : Nat) : List Nat :=
  [n / 2 ^ 8 % 256, n % 256]

/-- beUint models `binary.BigEndian.Uint16`/`Uint32`: big-endian value of
a byte slice. -/
def beUint (bs : List Nat) : Nat :=
  bs.foldl (fun a b => a * 256 + b) 0

/-- encodePacket mirrors `encodePacket` (packet.go:42-54).
`totalSize` is computed in uint32 arithmetic (`uint32(headerSize) +
uint32(len(p.Body))`), the header fields are written big-endian at their
fixed offsets, and `copy(buf[headerSize:], p.Body)` fills the remaining
`totalSize - headerSize` bytes of the buffer. -/
def encodePacket (p : Packet) : List Nat :=
  let totalSize := (headerSize + p.Body.length) % 2 ^ 32
  putUint32 totalSize ++ putUint16 headerSize ++ putUint16 (p.Protocol % 2 ^ 16) ++
    putUint32 (p.OpType % 2 ^ 32) ++ putUint32 (p.Sequence % 2 ^ 32) ++
    p.Body.take (totalSize - headerSize)

/-- decodeLoop mirrors the `for len(data) >= headerSize` loop of
`decodePackets` (packet.go:99-143), with the recursive call on
decompressed bytes inlined (including the `len(data) < headerSize`
entry check of `decodePackets`).  `dz` and `db` are the external zlib /
brotli decompressors.  `fuel` bounds the recursion depth; every theorem
below supplies enough fuel that the `"recursion limit"` branch is never
taken, so the fuelled function agrees with the Go original on those
inputs. -/
def decodeLoop (dz db : List Nat → Except String (List Nat)) :
    Nat → List Nat → Except String (List Packet)
  | 0, _ => .error "recursion limit"
  | fuel + 1, data =>
    if data.length < headerSize then .ok []
    else
      let totalSize := beUint (data.take 4)
      if totalSize > data.length ∨ totalSize < headerSize then
        .error "invalid packet size"
      else
        let proto := beUint ((data.drop 6).take 2)
        let opType := beUint ((data.drop 8).take 4)
        let seq := beUint ((data.drop 12).take 4)
        let body := (data.take totalSize).drop headerSize
        let rest := data.drop totalSize
        if proto = 3 then
          match db body with
          | .error e => .error ("brotli decompress: " ++ e)
          | .ok dec =>
            if dec.length < headerSize then
              .error "decode nested brotli packets: data too short"
            else
              match decodeLoop dz db fuel dec with
              | .error e => .error ("decode nested brotli packets: " ++ e)
              | .ok nested =>
                match decodeLoop dz db fuel rest with
                | .error e => .error e
                | .ok tail => .ok (nested ++ tail)
        else if proto = 2 then
          match dz body with
          | .error e => .error ("zlib decompress: " ++ e)
          | .ok dec =>
            if dec.length < headerSize then
              .error "decode nested zlib packets: data too short"
            else
              match decodeLoop dz db fuel dec with
              | .error e => .error ("decode nested zlib packets: " ++ e)
              | .ok nested =>
                match decodeLoop dz db fuel rest with
                | .error e => .error e
                | .ok tail => .ok (nested ++ tail)
        else
          match decodeLoop dz db fuel rest with
          | .error e => .error e
          | .ok tail => .ok (Packet.mk proto opType seq body :: tail)

/-- decodePackets mirrors `decodePackets` (packet.go:93-146): reject
buffers shorter than one header, then run the frame loop. -/
def decodePackets (dz db : List Nat → Except String (List Nat))
    (fuel : Nat) (data : List Nat) : Except String (List Packet) :=
  if data.length < headerSize then .error "data too short"
  else decodeLoop dz db fuel data

/-! ### Codec helper lemmas -/

theorem beUint_putUint32 (n : Nat) : beUint (putUint32 n) = n % 2 ^ 32 := by
  simp [beUint, putUint32]
  omega

theorem beUint_putUint16 (n : Nat) : beUint (putUint16 n) = n % 2 ^ 16 := by
  simp [beUint, putUint16]
  omega

theorem encodePacket_cons (p : Packet) (h : headerSize + p.Body.length < 2 ^ 32) :
    encodePacket p =
      let ts := headerSize + p.Body.length
      ts / 2 ^ 24 % 256 :: ts / 2 ^ 16 % 256 :: ts / 2 ^ 8 % 256 :: ts % 256 ::
      0 :: 16 ::
      p.Protocol % 2 ^ 16 / 2 ^ 8 % 256 :: p.Protocol % 2 ^ 16 % 256 ::
      p.OpType % 2 ^ 32 / 2 ^ 24 % 256 :: p.OpType % 2 ^ 32 / 2 ^ 16 % 256 ::
      p.OpType % 2 ^ 32 / 2 ^ 8 % 256 :: p.OpType % 2 ^ 32 % 256 ::
      p.Sequence % 2 ^ 32 / 2 ^ 24 % 256 :: p.Sequence % 2 ^ 32 / 2 ^ 16 % 256 ::
      p.Sequence % 2 ^ 32 / 2 ^ 8 % 256 :: p.Sequence % 2 ^ 32 % 256 :: p.Body := by
  have hmod : (headerSize + p.Body.length) % 2 ^ 32 = headerSize + p.Body.length :=
    Nat.mod_eq_of_lt h
  have htake : p.Body.take (headerSize + p.Body.length - headerSize) = p.Body := by
    simp [headerSize]
  have h16 : 16 + p.Body.length < 2 ^ 32 := by simpa [headerSize] using h
  simp [encodePacket, putUint32, putUint16, hmod, htake, headerSize]
  omega

theorem take4_cons (a b c d : Nat) (l : List Nat) :
    (a :: b :: c :: d :: l).take 4 = [a, b, c, d] := rfl

theorem drop6_take2 (a1 a2 a3 a4 a5 a6 b1 b2 : Nat) (l : List Nat) :
    ((a1 :: a2 :: a3 :: a4 :: a5 :: a6 :: b1 :: b2 :: l).drop 6).take 2 = [b1, b2] := rfl

theorem drop8_take4 (a1 a2 a3 a4 a5 a6 a7 a8 b1 b2 b3 b4 : Nat) (l : List Nat) :
    ((a1 :: a2 :: a3 :: a4 :: a5 :: a6 :: a7 :: a8 :: b1 :: b2 :: b3 :: b4 :: l).drop 8).take 4 =
      [b1, b2, b3, b4] := rfl

theorem drop12_take4 (a1 a2 a3 a4 a5 a6 a7 a8 a9 a10 a11 a12 b1 b2 b3 b4 : Nat) (l : List Nat) :
    ((a1 :: a2 :: a3 :: a4 :: a5 :: a6 :: a7 :: a8 :: a9 :: a10 :: a11 :: a12 ::
      b1 :: b2 :: b3 :: b4 :: l).drop 12).take 4 = [b1, b2, b3, b4] := rfl

theorem drop16_cons (a1 a2 a3 a4 a5 a6 a7 a8 a9 a10 a11 a12 a13 a14 a15 a16 : Nat)
    (l : List Nat) :
    (a1 :: a2 :: a3 :: a4 :: a5 :: a6 :: a7 :: a8 :: a9 :: a10 :: a11 :: a12 ::
      a13 :: a14 :: a15 :: a16 :: l).drop 16 = l := rfl

theorem beUint32_lit (n : Nat) :
    beUint [n / 2 ^ 24 % 256, n / 2 ^ 16 % 256, n / 2 ^ 8 % 256, n % 256] = n % 2 ^ 32 := by
  simpa [putUint32] using beUint_putUint32 n

theorem beUint16_lit (n : Nat) :
    beUint [n / 2 ^ 8 % 256, n % 256] = n % 2 ^ 16 := by
  simpa [putUint16] using beUint_putUint16 n

theorem take_len16 (a1 a2 a3 a4 a5 a6 a7 a8 a9 a10 a11 a12 a13 a14 a15 a16 : Nat)
    (l : List Nat) :
    (a1 :: a2 :: a3 :: a4 :: a5 :: a6 :: a7 :: a8 :: a9 :: a10 :: a11 :: a12 ::
      a13 :: a14 :: a15 :: a16 :: l).take (16 + l.length) =
      a1 :: a2 :: a3 :: a4 :: a5 :: a6 :: a7 :: a8 :: a9 :: a10 :: a11 :: a12 ::
      a13 :: a14 :: a15 :: a16 :: l := by
  have h : 16 + l.length =
      (a1 :: a2 :: a3 :: a4 :: a5 :: a6 :: a7 :: a8 :: a9 :: a10 :: a11 :: a12 ::
        a13 :: a14 :: a15 :: a16 :: l).length := by
    simp [List.length_cons]; omega
  rw [h, List.take_length]

theorem drop_len16 (a1 a2 a3 a4 a5 a6 a7 a8 a9 a10 a11 a12 a13 a14 a15 a16 : Nat)
    (l : List Nat) :
    (a1 :: a2 :: a3 :: a4 :: a5 :: a6 :: a7 :: a8 :: a9 :: a10 :: a11 :: a12 ::
      a13 :: a14 :: a15 :: a16 :: l).drop (16 + l.length) = [] := by
  have h : 16 + l.length =
      (a1 :: a2 :: a3 :: a4 :: a5 :: a6 :: a7 :: a8 :: a9 :: a10 :: a11 :: a12 ::
        a13 :: a14 :: a15 :: a16 :: l).length := by
    simp [List.length_cons]; omega
  rw [h, List.drop_length]

theorem decodeLoop_nil (dz db : List Nat → Except String (List Nat)) (f : Nat) :
    decodeLoop dz db (f + 1) [] = .ok [] := by
  simp [decodeLoop, headerSize]

theorem take_app_len16 (a1 a2 a3 a4 a5 a6 a7 a8 a9 a10 a11 a12 a13 a14 a15 a16 : Nat)
    (l r : List Nat) :
    (a1 :: a2 :: a3 :: a4 :: a5 :: a6 :: a7 :: a8 :: a9 :: a10 :: a11 :: a12 ::
      a13 :: a14 :: a15 :: a16 :: (l ++ r)).take (16 + l.length) =
      a1 :: a2 :: a3 :: a4 :: a5 :: a6 :: a7 :: a8 :: a9 :: a10 :: a11 :: a12 ::
      a13 :: a14 :: a15 :: a16 :: l := by
  have h : a1 :: a2 :: a3 :: a4 :: a5 :: a6 :: a7 :: a8 :: a9 :: a10 :: a11 :: a12 ::
      a13 :: a14 :: a15 :: a16 :: (l ++ r) =
      (a1 :: a2 :: a3 :: a4 :: a5 :: a6 :: a7 :: a8 :: a9 :: a10 :: a11 :: a12 ::
        a13 :: a14 :: a15 :: a16 :: l) ++ r := by
    simp
  rw [h]
  refine List.take_left' ?_
  simp [List.length_cons]
  omega

theorem drop_app_len16 (a1 a2 a3 a4 a5 a6 a7 a8 a9 a10 a11 a12 a13 a14 a15 a16 : Nat)
    (l r : List Nat) :
    (a1 :: a2 :: a3 :: a4 :: a5 :: a6 :: a7 :: a8 :: a9 :: a10 :: a11 :: a12 ::
      a13 :: a14 :: a15 :: a16 :: (l ++ r)).drop (16 + l.length) = r := by
  have h : a1 :: a2 :: a3 :: a4 :: a5 :: a6 :: a7 :: a8 :: a9 :: a10 :: a11 :: a12 ::
      a13 :: a14 :: a15 :: a16 :: (l ++ r) =
      (a1 :: a2 :: a3 :: a4 :: a5 :: a6 :: a7 :: a8 :: a9 :: a10 :: a11 :: a12 ::
        a13 :: a14 :: a15 :: a16 :: l) ++ r := by
    simp
  rw [h]
  refine List.drop_left' ?_
  simp [List.length_cons]
  omega

/-- decodeLoop on a buffer starting with one well-formed non-compressed
frame: the frame is emitted and the loop continues on the remaining
bytes. -/
theorem decodeLoop_plain_frame (dz db : List Nat → Except String (List Nat)) (f : Nat)
    (p : Packet) (rest : List Nat)
    (hpr : p.Protocol < 2 ^ 16) (hop : p.OpType < 2 ^ 32) (hsq : p.Sequence < 2 ^ 32)
    (hlen : headerSize + p.Body.length < 2 ^ 32)
    (h2 : p.Protocol ≠ 2) (h3 : p.Protocol ≠ 3) :
    decodeLoop dz db (f + 1) (encodePacket p ++ rest) =
      match decodeLoop dz db f rest with
      | .error e => .error e
      | .ok tail => .ok (p :: tail) := by
  have hlen' : 16 + p.Body.length < 2 ^ 32 := by simpa [headerSize] using hlen
  rw [encodePacket_cons p hlen]
  show decodeLoop dz db (f + 1) _ = _
  rw [decodeLoop]
  simp only [List.cons_append, take4_cons, drop6_take2, drop8_take4, drop12_take4,
    List.length_cons, List.length_append, headerSize]
  have hts : beUint [(16 + p.Body.length) / 2 ^ 24 % 256, (16 + p.Body.length) / 2 ^ 16 % 256,
      (16 + p.Body.length) / 2 ^ 8 % 256, (16 + p.Body.length) % 256] = 16 + p.Body.length := by
    rw [beUint32_lit]; exact Nat.mod_eq_of_lt hlen'
  have hpr' : beUint [p.Protocol % 2 ^ 16 / 2 ^ 8 % 256, p.Protocol % 2 ^ 16 % 256] =
      p.Protocol := by
    rw [beUint16_lit]; omega
  have hop' : beUint [p.OpType % 2 ^ 32 / 2 ^ 24 % 256, p.OpType % 2 ^ 32 / 2 ^ 16 % 256,
      p.OpType % 2 ^ 32 / 2 ^ 8 % 256, p.OpType % 2 ^ 32 % 256] = p.OpType := by
    rw [beUint32_lit]; omega
  have hsq' : beUint [p.Sequence % 2 ^ 32 / 2 ^ 24 % 256, p.Sequence % 2 ^ 32 / 2 ^ 16 % 256,
      p.Sequence % 2 ^ 32 / 2 ^ 8 % 256, p.Sequence % 2 ^ 32 % 256] = p.Sequence := by
    rw [beUint32_lit]; omega
  simp only [hts, hpr', hop', hsq']
  rw [if_neg (by omega), if_neg (by omega), if_neg h3, if_neg h2,
    take_app_len16, drop_app_len16, drop16_cons]

/-- decodeLoop on a single well-formed non-compressed frame yields exactly
that packet. -/
theorem decodeLoop_single (dz db : List Nat → Except String (List Nat)) (f : Nat) (p : Packet)
    (hpr : p.Protocol < 2 ^ 16) (hop : p.OpType < 2 ^ 32) (hsq : p.Sequence < 2 ^ 32)
    (hlen : headerSize + p.Body.length < 2 ^ 32)
    (h2 : p.Protocol ≠ 2) (h3 : p.Protocol ≠ 3) :
    decodeLoop dz db (f + 2) (encodePacket p) = .ok [p] := by
  have h := decodeLoop_plain_frame dz db (f + 1) p [] hpr hop hsq hlen h2 h3
  rw [List.append_nil] at h
  rw [h, decodeLoop_nil]

/-- decodeLoop on a buffer starting with a zlib-compressed frame whose body
the decompressor rejects: the whole call fails, whatever follows. -/
theorem decodeLoop_zlib_fail (dz db : List Nat → Except String (List Nat)) (f : Nat)
    (junk rest : List Nat) (e : String)
    (hjlen : headerSize + junk.length < 2 ^ 32)
    (hdz : dz junk = .error e) :
    decodeLoop dz db (f + 1) (encodePacket ⟨2, 5, 0, junk⟩ ++ rest) =
      .error ("zlib decompress: " ++ e) := by
  have hjlen' : 16 + junk.length < 2 ^ 32 := by simpa [headerSize] using hjlen
  rw [encodePacket_cons ⟨2, 5, 0, junk⟩ hjlen]
  show decodeLoop dz db (f + 1) _ = _
  rw [decodeLoop]
  simp only [List.cons_append, take4_cons, drop6_take2, drop8_take4, drop12_take4,
    List.length_cons, List.length_append, headerSize]
  have hts : beUint [(16 + junk.length) / 2 ^ 24 % 256, (16 + junk.length) / 2 ^ 16 % 256,
      (16 + junk.length) / 2 ^ 8 % 256, (16 + junk.length) % 256] = 16 + junk.length := by
    rw [beUint32_lit]; exact Nat.mod_eq_of_lt hjlen'
  have hpr' : beUint [2 % 2 ^ 16 / 2 ^ 8 % 256, 2 % 2 ^ 16 % 256] = 2 := by
    rw [beUint16_lit]; norm_num
  simp only [hts, hpr']
  rw [if_neg (by omega), if_neg (by omega), if_neg (by norm_num), if_pos trivial,
    take_app_len16, drop16_cons, hdz]

/-! ### Claim C5 -/

/-- C5: for every Packet whose protocol version is not a compressed one
(not zlib = 2 and not brotli = 3), decoding the bytes produced by encoding
it yields exactly one Packet with the same protocol, operation type,
sequence and body.  The bounds are the Go field widths (uint16 / uint32)
and the uint32 total-size arithmetic. -/
theorem decode_encode_roundtrip (dz db : List Nat → Except String (List Nat)) (f : Nat)
    (p : Packet)
    (hpr : p.Protocol < 2 ^ 16) (hop : p.OpType < 2 ^ 32) (hsq : p.Sequence < 2 ^ 32)
    (hlen : headerSize + p.Body.length < 2 ^ 32)
    (h2 : p.Protocol ≠ 2) (h3 : p.Protocol ≠ 3) :
    decodePackets dz db (f + 2) (encodePacket p) = .ok [p] := by
  have hL : ¬ ((encodePacket p).length < headerSize) := by
    rw [encodePacket_cons p hlen]
    simp only [List.length_cons, headerSize]
    omega
  rw [decodePackets, if_neg hL]
  exact decodeLoop_single dz db f p hpr hop hsq hlen h2 h3

/-- Witness for C5 at a concrete special-protocol packet. -/
theorem decode_encode_roundtrip_witness :
    decodePackets (fun _ => .error "z") (fun _ => .error "b") 2
      (encodePacket ⟨1, 8, 0, [104, 105]⟩) = .ok [⟨1, 8, 0, [104, 105]⟩] :=
  decode_encode_roundtrip _ _ 0 ⟨1, 8, 0, [104, 105]⟩ (by norm_num) (by norm_num)
    (by norm_num) (by norm_num [headerSize]) (by norm_num) (by norm_num)

/-! ### Claim C7 -/

/-- C7: a buffer whose front frame declares a total-frame-size below 16 or
above the remaining buffer length is rejected with the framing error and
no Packet is decoded from it. -/
theorem framing_error_rejects (dz db : List Nat → Except String (List Nat)) (f : Nat)
    (data : List Nat)
    (hlen : headerSize ≤ data.length)
    (hbad : beUint (data.take 4) < headerSize ∨ data.length < beUint (data.take 4)) :
    decodePackets dz db (f + 1) data = .error "invalid packet size" := by
  simp only [headerSize] at hlen hbad
  rw [decodePackets, if_neg (by simp only [headerSize]; omega)]
  rw [decodeLoop]
  simp only [headerSize]
  rw [if_neg (by omega), if_pos (by omega)]

/-- Witness for C7: a 20-byte buffer declaring a 999-byte frame. -/
theorem framing_error_rejects_witness :
    decodePackets (fun _ => .error "z") (fun _ => .error "b") 1
      (putUint32 999 ++ putUint16 16 ++ putUint16 0 ++ putUint32 5 ++ putUint32 0 ++
        [1, 2, 3]) = .error "invalid packet size" :=
  framing_error_rejects _ _ 0 _ (by decide) (by decide)

/-! ### Claim C1 -/

/-- C1 as stated is false on the code: with a buffer holding a plain frame
followed by a zlib frame whose 3-byte body `[1,2,3]` is not valid zlib data
(its first byte declares compression method 1, which inflate rejects), the
whole `decodePackets` call returns an error and the already-decoded sibling
packet `⟨0,5,7,[]⟩` is NOT returned. -/
theorem decompression_failure_cex :
    decodePackets (fun _ => .error "bad") (fun _ => .error "bad") 3
        (encodePacket ⟨0, 5, 7, []⟩ ++ encodePacket ⟨2, 5, 0, [1, 2, 3]⟩) =
      .error "zlib decompress: bad" ∧
    decodePackets (fun _ => .error "bad") (fun _ => .error "bad") 3
        (encodePacket ⟨0, 5, 7, []⟩ ++ encodePacket ⟨2, 5, 0, [1, 2, 3]⟩) ≠
      .ok [⟨0, 5, 7, []⟩] := by
  have h1 : decodePackets (fun _ => .error "bad") (fun _ => .error "bad") 3
      (encodePacket ⟨0, 5, 7, []⟩ ++ encodePacket ⟨2, 5, 0, [1, 2, 3]⟩) =
      .error "zlib decompress: bad" := rfl
  exact ⟨h1, fun h => Except.noConfusion (h1.symm.trans h)⟩

/-- C1 amended: a decompression failure on one outer frame is a decode
error that aborts the whole `decodePackets` call — siblings already decoded
from the same buffer are discarded, not returned.  (The skip the spec
describes happens one level up: the read loop in `connect` logs the decode
error and drops the whole socket message, then continues.) -/
theorem decompression_failure_aborts (dz db : List Nat → Except String (List Nat)) (f : Nat)
    (p : Packet) (junk : List Nat) (e : String)
    (hpr : p.Protocol < 2 ^ 16) (hop : p.OpType < 2 ^ 32) (hsq : p.Sequence < 2 ^ 32)
    (hlen : headerSize + p.Body.length < 2 ^ 32)
    (h2 : p.Protocol ≠ 2) (h3 : p.Protocol ≠ 3)
    (hjlen : headerSize + junk.length < 2 ^ 32)
    (hdz : dz junk = .error e) :
    decodePackets dz db (f + 2) (encodePacket p ++ encodePacket ⟨2, 5, 0, junk⟩) =
      .error ("zlib decompress: " ++ e) := by
  have hL : ¬ ((encodePacket p ++ encodePacket ⟨2, 5, 0, junk⟩).length < headerSize) := by
    rw [encodePacket_cons p hlen]
    simp only [List.length_append, List.length_cons, headerSize]
    omega
  rw [decodePackets, if_neg hL]
  show decodeLoop dz db (f + 1 + 1) _ = _
  rw [decodeLoop_plain_frame dz db (f + 1) p _ hpr hop hsq hlen h2 h3]
  have hz := decodeLoop_zlib_fail dz db f junk [] e hjlen hdz
  rw [List.append_nil] at hz
  rw [hz]

/-- Witness for the amended C1 at a concrete buffer. -/
theorem decompression_failure_aborts_witness :
    decodePackets (fun _ => .error "nope") (fun _ => .error "b") 3
      (encodePacket ⟨1, 8, 9, [7]⟩ ++ encodePacket ⟨2, 5, 0, [9, 9]⟩) =
      .error ("zlib decompress: " ++ "nope") :=
  decompression_failure_aborts _ _ 1 ⟨1, 8, 9, [7]⟩ [9, 9] "nope"
    (by norm_num) (by norm_num) (by norm_num) (by norm_num [headerSize])
    (by norm_num) (by norm_num) (by norm_num [headerSize]) rfl

/-! ## Reconnect backoff and the per-room reconnect loop
(src/unnamed/part_004, first revision: `roomConn.run` lines 306-331,
`backoff` lines 443-449, constants lines 287-291) -/

/-- maxBackoff mirrors `maxBackoff = 2 * time.Minute`, in nanoseconds
(`time.Duration` is an int64 nanosecond count). -/
def maxBackoff : Int := 120 * 10 ^ 9

/-- baseBackoff mirrors `baseBackoff = 1 * time.Second`, in nanoseconds. -/
def baseBackoff : Int := 10 ^ 9

/-- int64wrap reduces an integer to the int64 range with two's-complement
wrap-around, as Go integer multiplication does. -/
def int64wrap (n : Int) : Int :=
  (n + 2 ^ 63) % 2 ^ 64 - 2 ^ 63

/-- backoff mirrors `backoff` (src/unnamed/part_004:443-449):
`d := baseBackoff * time.Duration(math.Pow(2, float64(attempt-1)))`,
capped at `maxBackoff`.  For `1 ≤ attempt ≤ 63` the float64 `math.Pow`
is the exact integer `2^(attempt-1)` and its conversion to int64 is in
range, so the only machine effect on that domain is the wrapping int64
multiplication, modelled by `int64wrap`.  `roomConn.run` always calls
this with `attempt ≥ 1`. -/
def backoff (attempt : Nat) : Int :=
  let d := int64wrap (baseBackoff * 2 ^ (attempt - 1))
  if d > maxBackoff then maxBackoff else d

/-- runAttemptDelays models the reconnect loop of `roomConn.run`
(src/unnamed/part_004:306-331).  Each element of `cycles` is one
completed, non-cancelled `connect` call; the Bool records whether that
cycle successfully entered Streaming before its eventual failure.  The
loop body executes `attempt++; delay := backoff(attempt)` after every
such cycle — it never inspects whether Streaming was reached, so the
Bool is ignored.  Result: (the list of delays waited, in order; the
final attempt counter). -/
def runAttemptDelays (cycles : List Bool) : List Int × Nat :=
  cycles.foldl
    (fun acc _entered =>
      let attempt := acc.2 + 1
      (acc.1 ++ [backoff attempt], attempt))
    ([], 0)

/-- specAttemptDelays — Modelled from the spec: §4.2 "attempt increments
on every failed cycle and resets to 0 the moment Streaming is
successfully entered".  Refinement comparison target for C3: a cycle
that entered Streaming restarts the counter from 0 before the
post-failure increment. -/
def specAttemptDelays (cycles : List Bool) : List Int × Nat :=
  cycles.foldl
    (fun acc entered =>
      let base := if entered then 0 else acc.2
      let attempt := base + 1
      (acc.1 ++ [backoff attempt], attempt))
    ([], 0)

/-! ### Claim C4 -/

/-- C4 as stated is false on the code: at attempt 35 the int64 product
`baseBackoff * 2^34` overflows and wraps to a negative duration, so the
computed delay is not `min(maxBackoff, baseBackoff * 2^(35-1))` (which
would be the 2-minute cap) and the delay sequence is not non-decreasing
from attempt 34 to attempt 35. -/
theorem backoff_overflow_cex :
    backoff 35 = -1266874889709551616 ∧
    backoff 35 ≠ min maxBackoff (baseBackoff * 2 ^ (35 - 1)) ∧
    backoff 35 < backoff 34 := by decide

set_option maxRecDepth 8192 in
/-- C4 amended: for attempts 1..34 (that is, until the int64 product
first overflows), the computed delay equals
`min(maxBackoff, baseBackoff * 2^(attempt-1))`, never exceeds the
2-minute cap, and is non-decreasing from each attempt to the next. -/
theorem backoff_capped_monotone :
    (∀ k, k < 35 → 1 ≤ k →
      backoff k = min maxBackoff (baseBackoff * 2 ^ (k - 1)) ∧ backoff k ≤ maxBackoff) ∧
    (∀ k, k < 34 → 1 ≤ k → backoff k ≤ backoff (k + 1)) := by decide

/-- Witness for C4's amended theorem at attempt 8 (the first capped one). -/
theorem backoff_capped_monotone_witness :
    backoff 8 = min maxBackoff (baseBackoff * 2 ^ (8 - 1)) ∧ backoff 8 ≤ maxBackoff :=
  backoff_capped_monotone.1 8 (by norm_num) (by norm_num)

/-! ### Claim C3 -/

/-- C3 as stated is false on the code: after two cycles that each entered
Streaming and then dropped, the attempt counter is 2 (not reset by the
successful connects), the second delay is `backoff 2` rather than the
attempt-1 delay the claim requires, and the loop differs from the
reset-on-Streaming behaviour the spec describes. -/
theorem attempt_no_reset_cex :
    (runAttemptDelays [true, true]).2 = 2 ∧
    (runAttemptDelays [true, true]).1 = [backoff 1, backoff 2] ∧
    runAttemptDelays [true, true] ≠ specAttemptDelays [true, true] ∧
    backoff 2 ≠ backoff 1 := by decide

/-- C3 amended: `roomConn.run`'s attempt counter increments on every
failed connection cycle and never resets — entering Streaming has no
effect on it — so the delay after the n-th completed cycle is
`backoff n` even when successful connections came in between. -/
theorem attempt_counter_never_resets (cycles : List Bool) :
    (runAttemptDelays cycles).2 = cycles.length ∧
    (runAttemptDelays cycles).1 =
      (List.range cycles.length).map (fun i => backoff (i + 1)) := by
  induction cycles using List.reverseRecOn with
  | nil => simp [runAttemptDelays]
  | append_singleton cs c ih =>
    unfold runAttemptDelays at ih ⊢
    rw [List.foldl_append] at *
    simp only [List.foldl_cons, List.foldl_nil, List.length_append, List.length_singleton]
    refine ⟨by rw [ih.1], ?_⟩
    rw [List.range_succ, List.map_append, ih.1, ih.2]
    simp

/-! ## Sender: message splitting and the send path (src/unnamed/part_002) -/

/-- GoRes models the observable outcome of running a Go routine under a
fuel bound: `ok` is a normal return, `crash` is a runtime panic (here:
slice bounds out of range), `timeout` means the fuel ran out before the
loop finished — used to witness non-termination uniformly in the fuel. -/
inductive GoRes (α : Type) where
  | ok (val : α)
  | crash
  | timeout
deriving Repr, DecidableEq

/-- splitLoop models the chunking loop of `splitMessage`
(src/unnamed/part_002:174-181).  One iteration: `end := maxLen; if end >
len(runes) { end = len(runes) }`, append `string(runes[:end])` to the
chunks, continue with `runes[end:]`.  A negative `end` makes
`runes[:end]` panic, modelled as `crash`.  Strings are modelled as their
rune (character) sequences, exactly what `[]rune(msg)` iterates over. -/
def splitLoop (maxLen : Int) : Nat → List Char → List (List Char) → GoRes (List (List Char))
  | 0, _, _ => .timeout
  | fuel + 1, runes, chunks =>
    if runes.length = 0 then .ok chunks
    else
      let endIdx := if maxLen > (runes.length : Int) then (runes.length : Int) else maxLen
      if endIdx < 0 then .crash
      else splitLoop maxLen fuel (runes.drop endIdx.toNat) (chunks ++ [runes.take endIdx.toNat])

/-- splitMessage mirrors `splitMessage` (src/unnamed/part_002:167-183): a
message of at most `maxLen` runes is returned whole as a single chunk,
otherwise the chunking loop runs. -/
def splitMessage (msg : List Char) (maxLen : Int) (fuel : Nat) : GoRes (List (List Char)) :=
  if (msg.length : Int) ≤ maxLen then .ok [msg]
  else splitLoop maxLen fuel msg []

/-- The chunking loop, run with positive `maxLen` and enough fuel,
returns the accumulated chunks followed by a partition of the remaining
runes into pieces of at most `maxLen`. -/
theorem splitLoop_ok (maxLen : Int) (h : 1 ≤ maxLen) :
    ∀ (fuel : Nat) (runes : List Char) (chunks : List (List Char)),
      runes.length < fuel →
      ∃ rest : List (List Char),
        splitLoop maxLen fuel runes chunks = .ok (chunks ++ rest) ∧
        rest.flatten = runes ∧
        ∀ c ∈ rest, (c.length : Int) ≤ maxLen := by
  intro fuel
  induction fuel with
  | zero => intro runes chunks hlen; omega
  | succ f ih =>
    intro runes chunks hlen
    by_cases hr : runes.length = 0
    · refine ⟨[], ?_, ?_, ?_⟩
      · simp [splitLoop, hr]
      · simp [List.length_eq_zero.mp hr]
      · simp
    · have hlen1 : 1 ≤ runes.length := by omega
      set endIdx : Int := if maxLen > (runes.length : Int) then (runes.length : Int) else maxLen
        with hend
      have he1 : 1 ≤ endIdx := by
        rw [hend]; split <;> omega
      have heLen : endIdx.toNat ≤ runes.length := by
        rw [hend]; split <;> omega
      have heMax : (endIdx.toNat : Int) ≤ maxLen := by
        rw [hend]; split <;> omega
      have hnotneg : ¬ endIdx < 0 := by omega
      obtain ⟨rest, heq, hjoin, hbound⟩ :=
        ih (runes.drop endIdx.toNat) (chunks ++ [runes.take endIdx.toNat])
          (by simp [List.length_drop]; omega)
      refine ⟨runes.take endIdx.toNat :: rest, ?_, ?_, ?_⟩
      · rw [show splitLoop maxLen (f + 1) runes chunks =
            splitLoop maxLen f (runes.drop endIdx.toNat)
              (chunks ++ [runes.take endIdx.toNat]) from by
          rw [splitLoop]
          rw [if_neg hr, ← hend, if_neg hnotneg]]
        rw [heq]
        simp
      · simp only [List.flatten_cons, hjoin, List.take_append_drop]
      · intro c hc
        rcases List.mem_cons.mp hc with hc | hc
        · subst hc
          have : (runes.take endIdx.toNat).length = min endIdx.toNat runes.length := by
            simp
          rw [this]
          omega
        · exact hbound c hc

/-- splitMessage with positive `maxLen` and fuel `msg.length + 1`
returns chunks that concatenate back to the message, each of at most
`maxLen` runes.  Shared by the C6 and C10 theorems. -/
theorem splitMessage_chunks (msg : List Char) (maxLen : Int) (h : 1 ≤ maxLen) :
    ∃ chunks : List (List Char),
      splitMessage msg maxLen (msg.length + 1) = .ok chunks ∧
      chunks.flatten = msg ∧
      ∀ c ∈ chunks, (c.length : Int) ≤ maxLen := by
  unfold splitMessage
  by_cases hfit : (msg.length : Int) ≤ maxLen
  · rw [if_pos hfit]
    refine ⟨[msg], rfl, by simp, ?_⟩
    intro c hc
    rcases List.mem_singleton.mp hc with rfl
    exact hfit
  · rw [if_neg hfit]
    obtain ⟨rest, heq, hjoin, hbound⟩ :=
      splitLoop_ok maxLen h (msg.length + 1) msg [] (by omega)
    exact ⟨rest, by simpa using heq, hjoin, hbound⟩

/-! ### Claim C6 -/

/-- C6: for every message and every `maxLength ≥ 1`, splitting returns
chunks, in original order with no overlap, whose concatenation is the
original message, each of at most `maxLength` characters.  The model
works on the rune sequence (`[]rune(msg)`), exactly as the Go code does,
so a multi-byte character is never split across chunks: every chunk is a
contiguous run of whole runes and the runs concatenate back to the
original. -/
theorem splitMessage_preserves_content (msg : List Char) (maxLen : Int) (h : 1 ≤ maxLen) :
    ∃ chunks : List (List Char),
      splitMessage msg maxLen (msg.length + 1) = .ok chunks ∧
      chunks.flatten = msg ∧
      ∀ c ∈ chunks, (c.length : Int) ≤ maxLen :=
  splitMessage_chunks msg maxLen h

/-- Witness for C6 at the 5-character message split with maxLength 2. -/
theorem splitMessage_preserves_content_witness :
    ∃ chunks : List (List Char),
      splitMessage ['a', 'b', 'c', 'd', 'e'] 2 (5 + 1) = .ok chunks ∧
      chunks.flatten = ['a', 'b', 'c', 'd', 'e'] ∧
      ∀ c ∈ chunks, (c.length : Int) ≤ 2 :=
  splitMessage_preserves_content ['a', 'b', 'c', 'd', 'e'] 2 (by norm_num)

/-! ### Claim C10 -/

/-- C10 as stated is false on the code: it asserts that with `maxLen ≤ 0`
a positive-length message never terminates because the loop fails to
make progress, but for negative `maxLen` the very first iteration
panics on `runes[:end]` with a negative bound (termination by crash,
not an endless loop), at any fuel. -/
theorem splitMessage_negative_crash_cex :
    splitMessage ['a'] (-1) 1 = .crash ∧
    splitMessage ['a'] (-1) 1000 = .crash ∧
    (['a'] : List Char) ≠ [] := by
  refine ⟨by decide, ?_, by decide⟩
  rw [splitMessage, if_neg (by decide), splitLoop, if_neg (by decide)]
  norm_num

/-- C10 amended: splitMessage terminates normally for every message when
`maxLen ≥ 1`; with `maxLen ≤ 0` it returns normally iff the message is
empty — a positive-length message spins forever without progress when
`maxLen = 0` (timeout at every fuel) and panics on the negative slice
bound when `maxLen < 0`. -/
theorem splitMessage_termination :
    (∀ (msg : List Char) (maxLen : Int), 1 ≤ maxLen →
      ∃ chunks, splitMessage msg maxLen (msg.length + 1) = .ok chunks) ∧
    (∀ (msg : List Char) (fuel : Nat), msg ≠ [] →
      splitMessage msg 0 fuel = .timeout) ∧
    (∀ (msg : List Char) (maxLen : Int) (fuel : Nat), maxLen < 0 → msg ≠ [] →
      splitMessage msg maxLen (fuel + 1) = .crash) ∧
    (∀ maxLen : Int, maxLen ≤ 0 →
      ∃ chunks, splitMessage [] maxLen 1 = .ok chunks) := by
  refine ⟨?_, ?_, ?_, ?_⟩
  · intro msg maxLen h
    obtain ⟨chunks, heq, -, -⟩ := splitMessage_chunks msg maxLen h
    exact ⟨chunks, heq⟩
  · intro msg fuel hne
    have hlen : 1 ≤ msg.length := List.length_pos.mpr hne
    have hloop : ∀ (fl : Nat) (runes : List Char) (chunks : List (List Char)),
        1 ≤ runes.length → splitLoop 0 fl runes chunks = .timeout := by
      intro fl
      induction fl with
      | zero => intro runes chunks _; rfl
      | succ g ih =>
        intro runes chunks h1
        rw [splitLoop, if_neg (by omega)]
        have hend : (if (0 : Int) > (runes.length : Int) then (runes.length : Int) else 0) =
            0 := by
          rw [if_neg (by omega)]
        rw [hend, if_neg (by omega)]
        simpa using ih runes (chunks ++ [runes.take (0 : Int).toNat]) h1
    rw [splitMessage, if_neg (by omega)]
    exact hloop fuel msg [] hlen
  · intro msg maxLen fuel hneg hne
    have hlen : 1 ≤ msg.length := List.length_pos.mpr hne
    rw [splitMessage, if_neg (by omega), splitLoop, if_neg (by omega)]
    have hend : (if maxLen > (msg.length : Int) then (msg.length : Int) else maxLen) =
        maxLen := by
      rw [if_neg (by omega)]
    rw [hend, if_pos hneg]
  · intro maxLen hle
    by_cases h0 : (0 : Int) ≤ maxLen
    · exact ⟨[[]], by rw [splitMessage]; simp [h0]⟩
    · refine ⟨[], ?_⟩
      rw [splitMessage, if_neg (by omega)]
      rfl

/-- Witness for C10's amended theorem: a one-character message with
`maxLen = 0` times out at fuel 7. -/
theorem splitMessage_termination_witness :
    splitMessage ['a'] 0 7 = GoRes.timeout :=
  splitMessage_termination.2.1 ['a'] 7 (by decide)

/-! ### Claim C2: sendOne and the last-send timestamp -/

/-- HTTPOutcome abstracts what happens to one `sendOne` HTTP call
(src/unnamed/part_002:131-149): the transport fails (`httpClient.Do`
errors), reading the response body fails, parsing the JSON response
fails, or a response with an application-level `code` and
`message`/`msg` strings is obtained.  (The `http.NewRequestWithContext`
construction step cannot fail for these fixed arguments and is not
modelled.) -/
inductive HTTPOutcome where
  | transportError
  | readBodyError
  | parseError
  | response (code : Int) (message msg : String)
deriving Repr, DecidableEq

/-- SendError models the error results of `sendOne`: wrapped transport /
read / parse errors, or the `SendError{Code, Message}` struct returned
on a non-zero application code (src/unnamed/part_002:24-32,154-159). -/
inductive SendError where
  | transport
  | readBody
  | parse
  | remote (code : Int) (message : String)
deriving Repr, DecidableEq

/-- sendOne mirrors `sendOne` (src/unnamed/part_002:111-164) from the
point of the HTTP call on: transport, body-read and parse failures
return early; once a response is parsed, the per-room last-send
timestamp is stored (`s.lastSend.Store(roomID, time.Now())`, line 152)
BEFORE the application code is checked, so it is recorded for both
accepted and rejected sends.  State is the room's `lastSend` entry;
`now` is the store's timestamp. -/
def sendOne (outcome : HTTPOutcome) (lastSend : Option Nat) (now : Nat) :
    Except SendError Unit × Option Nat :=
  match outcome with
  | .transportError => (.error .transport, lastSend)
  | .readBodyError => (.error .readBody, lastSend)
  | .parseError => (.error .parse, lastSend)
  | .response code message msg =>
    let recorded := some now
    if code ≠ 0 then
      (.error (.remote code (if message ≠ "" then message else msg)), recorded)
    else
      (.ok (), recorded)

/-- C2 as stated is false on the code: when the HTTP call fails at the
transport level, `sendOne` returns before reaching the
`lastSend.Store` line, so no timestamp is recorded for the room (the
entry stays `none` instead of becoming `some 7`). -/
theorem lastSend_transport_cex :
    (sendOne .transportError none 7).2 = none ∧
    (sendOne .transportError none 7).2 ≠ some 7 := by decide

/-- C2 amended: the last-send timestamp is recorded exactly when an HTTP
response was received, read and parsed — then regardless of the
application-level result (zero or non-zero code) — while transport,
body-read and parse failures leave the previous value unchanged. -/
theorem lastSend_recorded_iff_response :
    (∀ (code : Int) (message msg : String) (last : Option Nat) (now : Nat),
      (sendOne (.response code message msg) last now).2 = some now) ∧
    (∀ (last : Option Nat) (now : Nat),
      (sendOne .transportError last now).2 = last ∧
      (sendOne .readBodyError last now).2 = last ∧
      (sendOne .parseError last now).2 = last) := by
  refine ⟨?_, ?_⟩
  · intro code message msg last now
    by_cases h : code ≠ 0 <;> simp [sendOne, h]
  · intro last now
    exact ⟨rfl, rfl, rfl⟩

/-! ## Event dispatch (client.go, src/unnamed/part_004) -/

/-- Event type constants mirror src/unnamed/part_004:9-19. -/
def EventDanmaku : String := "danmaku"

def EventGift : String := "gift"

def EventSuperChat : String := "superchat"

def EventGuardBuy : String := "guard"

def EventLive : String := "live"

def EventPreparing : String := "preparing"

def EventInteract : String := "interact"

def EventRaw : String := "raw"

def EventHeartbeat : String := "heartbeat"

/-- EventData models the dynamic type held in `Event.Data`
(`interface{}`): which Go struct pointer it carries.  Payload fields the
dispatch code never branches on are elided; the `LiveEvent.Live` flag
and the raw body bytes are kept because `dispatchCommand` does branch on
them. -/
inductive EventData where
  | danmaku
  | gift
  | superChat
  | guardBuy
  | liveEvent (live : Bool)
  | interactWord
  | heartbeat
  | rawBody (body : List Nat)
deriving Repr, DecidableEq

/-- Event mirrors the `Event` envelope (src/unnamed/part_004:22-26). -/
structure Event where
  RoomID : Int
  Typ    : String
  Data   : EventData
deriving Repr, DecidableEq

/-- RawCmd mirrors `rawCmd` (src/unnamed/part_004:88-92): the top-level
JSON envelope with its `cmd` name and the raw `info` / `data` segments. -/
structure RawCmd where
  CMD  : String
  Info : List Nat
  Data : List Nat
deriving Repr, DecidableEq

/-- parseCommandPacket mirrors `parseCommandPacket`
(src/unnamed/part_004:96-120).  `unmarshal` abstracts
`json.Unmarshal(body, &cmd)` (`none` = parse error); the per-command
typed parsers (`parseDanmaku` etc., themselves JSON field extractors)
are abstract parameters `pd pg psc pgb piw`.  The `LIVE` / `PREPARING`
arms construct their events inline, as the source does. -/
def parseCommandPacket (unmarshal : List Nat → Option RawCmd)
    (pd pg psc pgb piw : Int → List Nat → Option Event)
    (roomID : Int) (body : List Nat) : Option Event :=
  match unmarshal body with
  | none => none
  | some c =>
    match c.CMD with
    | "DANMU_MSG" => pd roomID c.Info
    | "SEND_GIFT" => pg roomID c.Data
    | "SUPER_CHAT_MESSAGE" => psc roomID c.Data
    | "GUARD_BUY" => pgb roomID c.Data
    | "LIVE" => some { RoomID := roomID, Typ := EventLive, Data := .liveEvent true }
    | "PREPARING" => some { RoomID := roomID, Typ := EventPreparing, Data := .liveEvent false }
    | "INTERACT_WORD" => piw roomID c.Data
    | _ => none

/-- extractCMD mirrors `extractCMD` (client.go:370-380): bodies of at
most 4 bytes are not parsed at all; otherwise the `cmd` field is pulled
out best-effort, an unparseable body yielding the zero value `""`. -/
def extractCMD (unmarshal : List Nat → Option RawCmd) (body : List Nat) : String :=
  if 4 < body.length then
    match unmarshal body with
    | some c => c.CMD
    | none => ""
  else ""

/-- Callbacks models the Client's registered callback lists
(client.go:20-29); each registered callback is identified by a Nat tag
(its registration index), since the model cannot carry Go closures. -/
structure Callbacks where
  onDanmaku  : List Nat
  onGift     : List Nat
  onSuper    : List Nat
  onGuard    : List Nat
  onLive     : List Nat
  onPrepare  : List Nat
  onInteract : List Nat
  onRaw      : List Nat
deriving Repr, DecidableEq

/-- DispatchResult records what one `dispatchCommand` call does:
which raw callbacks fire and with what arguments (in order), which
typed callbacks fire (kind, callback tag), and which Events are handed
to `publishEvent` for queue fan-out. -/
structure DispatchResult where
  rawCalls   : List (Nat × String × List Nat)
  typedCalls : List (String × Nat)
  published  : List Event
deriving Repr, DecidableEq

/-- dispatchCommand mirrors `dispatchCommand` (client.go:278-332):
parse the command, always fire every raw callback with
`(extractCMD body, body)`, then — if the command was not recognised —
publish the raw Event and stop; otherwise fire the typed callback list
selected by the dynamic type of the payload (the `LiveEvent` case
branching on its `Live` flag) and publish the typed Event. -/
def dispatchCommand (cbs : Callbacks) (unmarshal : List Nat → Option RawCmd)
    (pd pg psc pgb piw : Int → List Nat → Option Event)
    (roomID : Int) (body : List Nat) : DispatchResult :=
  let event := parseCommandPacket unmarshal pd pg psc pgb piw roomID body
  let cmd := extractCMD unmarshal body
  let raw := cbs.onRaw.map (fun i => (i, cmd, body))
  match event with
  | none =>
    { rawCalls := raw, typedCalls := [],
      published := [{ RoomID := roomID, Typ := EventRaw, Data := .rawBody body }] }
  | some ev =>
    let typed :=
      match ev.Data with
      | .danmaku => cbs.onDanmaku.map (fun i => ("onDanmaku", i))
      | .gift => cbs.onGift.map (fun i => ("onGift", i))
      | .superChat => cbs.onSuper.map (fun i => ("onSuper", i))
      | .guardBuy => cbs.onGuard.map (fun i => ("onGuard", i))
      | .liveEvent live =>
        if live then cbs.onLive.map (fun i => ("onLive", i))
        else cbs.onPrepare.map (fun i => ("onPrepare", i))
      | .interactWord => cbs.onInteract.map (fun i => ("onInteract", i))
      | .heartbeat => []
      | .rawBody _ => []
    { rawCalls := raw, typedCalls := typed, published := [ev] }

/-- Queue models one buffered subscriber channel (`Subscribe` creates
them with capacity 256): current buffered events and capacity. -/
structure Queue where
  buf : List Event
  cap : Nat
deriving Repr, DecidableEq

/-- publishEvent mirrors `publishEvent` (client.go:334-344): for every
subscriber channel a non-blocking select — enqueue when the buffer has
free space, otherwise the `default` branch drops the event silently. -/
def publishEvent (subs : List Queue) (ev : Event) : List Queue :=
  subs.map fun q => if q.buf.length < q.cap then { q with buf := q.buf ++ [ev] } else q

/-! ### Claim C8 -/

/-- C8: a command whose envelope parses but whose command name is not in
the recognised set fires every registered raw callback with the command
name and the raw body, publishes exactly the RawUnrecognized Event, and
fires no typed callback. -/
theorem unrecognized_command_dispatch (cbs : Callbacks)
    (unmarshal : List Nat → Option RawCmd)
    (pd pg psc pgb piw : Int → List Nat → Option Event)
    (roomID : Int) (body : List Nat) (c : RawCmd)
    (hu : unmarshal body = some c) (hlen : 4 < body.length)
    (h1 : c.CMD ≠ "DANMU_MSG") (h2 : c.CMD ≠ "SEND_GIFT")
    (h3 : c.CMD ≠ "SUPER_CHAT_MESSAGE") (h4 : c.CMD ≠ "GUARD_BUY")
    (h5 : c.CMD ≠ "LIVE") (h6 : c.CMD ≠ "PREPARING") (h7 : c.CMD ≠ "INTERACT_WORD") :
    dispatchCommand cbs unmarshal pd pg psc pgb piw roomID body =
      { rawCalls := cbs.onRaw.map (fun i => (i, c.CMD, body)),
        typedCalls := [],
        published := [{ RoomID := roomID, Typ := EventRaw, Data := .rawBody body }] } := by
  have hparse : parseCommandPacket unmarshal pd pg psc pgb piw roomID body = none := by
    simp only [parseCommandPacket, hu]
  simp only [dispatchCommand, hparse, extractCMD, if_pos hlen, hu]

/-- Witness for C8: the `"FOO_BAR"` scenario with two raw callbacks and
one callback of every typed kind registered. -/
theorem unrecognized_command_dispatch_witness :
    dispatchCommand ⟨[0], [0], [0], [0], [0], [0], [0], [0, 1]⟩
        (fun _ => some ⟨"FOO_BAR", [], []⟩) (fun _ _ => none) (fun _ _ => none)
        (fun _ _ => none) (fun _ _ => none) (fun _ _ => none) 42 [1, 2, 3, 4, 5] =
      { rawCalls := [(0, "FOO_BAR", [1, 2, 3, 4, 5]), (1, "FOO_BAR", [1, 2, 3, 4, 5])],
        typedCalls := [],
        published := [{ RoomID := 42, Typ := EventRaw, Data := .rawBody [1, 2, 3, 4, 5] }] } := by
  have h := unrecognized_command_dispatch ⟨[0], [0], [0], [0], [0], [0], [0], [0, 1]⟩
    (fun _ => some ⟨"FOO_BAR", [], []⟩) (fun _ _ => none) (fun _ _ => none)
    (fun _ _ => none) (fun _ _ => none) (fun _ _ => none) 42 [1, 2, 3, 4, 5]
    ⟨"FOO_BAR", [], []⟩ rfl (by norm_num) (by decide) (by decide) (by decide)
    (by decide) (by decide) (by decide) (by decide)
  rw [h]
  rfl

/-! ### Claim C9 -/

/-- C9: publishing an Event to the subscriber queues is non-blocking and
pointwise: the result has one queue per input queue, a queue with free
space receives the Event at the back of its buffer, and a queue at
capacity is returned unchanged (the Event silently dropped for it) —
each queue's outcome depends only on that queue, so a full queue cannot
prevent delivery to the others. -/
theorem publishEvent_nonblocking (subs : List Queue) (ev : Event) :
    (publishEvent subs ev).length = subs.length ∧
    ∀ (i : Nat) (q : Queue), subs[i]? = some q →
      (publishEvent subs ev)[i]? =
        some (if q.buf.length < q.cap then { q with buf := q.buf ++ [ev] } else q) := by
  refine ⟨by simp [publishEvent], ?_⟩
  intro i q hq
  simp [publishEvent, List.getElem?_map, hq]

/-- Witness for C9: one full queue (capacity 1, one buffered event) and
one queue with free space; the full one is unchanged, the free one
receives the event. -/
theorem publishEvent_nonblocking_witness :
    (publishEvent [⟨[⟨1, "raw", .heartbeat⟩], 1⟩, ⟨[], 2⟩] ⟨2, "raw", .heartbeat⟩)[0]? =
      some ⟨[⟨1, "raw", .heartbeat⟩], 1⟩ ∧
    (publishEvent [⟨[⟨1, "raw", .heartbeat⟩], 1⟩, ⟨[], 2⟩] ⟨2, "raw", .heartbeat⟩)[1]? =
      some ⟨[⟨2, "raw", .heartbeat⟩], 2⟩ := by
  have h0 := (publishEvent_nonblocking [⟨[⟨1, "raw", .heartbeat⟩], 1⟩, ⟨[], 2⟩]
    ⟨2, "raw", .heartbeat⟩).2 0 ⟨[⟨1, "raw", .heartbeat⟩], 1⟩ (by decide)
  have h1 := (publishEvent_nonblocking [⟨[⟨1, "raw", .heartbeat⟩], 1⟩, ⟨[], 2⟩]
    ⟨2, "raw", .heartbeat⟩).2 1 ⟨[], 2⟩ (by decide)
  refine ⟨?_, ?_⟩
  · rw [h0]; decide
  · rw [h1]; decide

end BiliDM

